import Mathlib

/-!
Verification development for the hedged RPC client core
(`src/client.rs`, `src/config.rs`, `src/errors.rs`).

The Rust scheduler is embedded shallowly:

* `ProviderId` is a string label (`config.rs`, `ProviderId(pub &'static str)`).
* `HedgeConfig` mirrors `config.rs::HedgeConfig`; durations are modelled as
  natural numbers of milliseconds.
* The statistics registry (`HashMap<ProviderId, ProviderStats>` behind a
  mutex) is modelled as an association list with first-occurrence lookup and
  first-occurrence update, which coincides with the hash map on the
  duplicate-free key sets the constructor produces.  The `f64` winning-latency
  accumulator is modelled as a rational number.
* The transport closure `f : Arc<RpcClient> -> Future<Result<T, ClientError>>`
  is abstracted by an environment assigning each provider the duration (ms)
  and the outcome of its attempt; `ClientError` (a foreign `solana_client`
  type) is abstracted to its kind tag with its message.
* The race in `hedged_call` (lines 160-209) is replayed deterministically:
  the initial wave is launched at time 0, the reserve at `hedge_after` when
  the hedge timer fires, attempt completions are processed in completion-time
  order (ties by launch order, a tie-breaking choice the claims do not depend
  on), the first `Ok` wins, and `tokio::time::timeout` cuts the race at
  `overall_timeout` (the inner future is polled first at an exact tie).
-/

namespace HedgedRpc

abbrev ProviderId := String

/-- Kinds of the foreign `solana_client::client_error::ClientError` that the
core distinguishes: `ErrorKind::Custom(msg)` (used for synthetic staleness
errors in `get_account_fresh`) and every other transport-level kind,
abstracted to a tagged message. -/
inductive ClientError where
  | custom : String → ClientError
  | transport : String → ClientError
deriving DecidableEq, Repr

/-- `config.rs::HedgeConfig`; durations in milliseconds. -/
structure HedgeConfig where
  initial_providers : Nat
  hedge_after : Nat
  max_providers : Nat
  min_slot : Option Nat
  overall_timeout : Nat
deriving DecidableEq, Repr

/-- `errors.rs::HedgedError`. -/
inductive HedgedError where
  | noProviders : HedgedError
  | allFailed : List (ProviderId × ClientError) → HedgedError
  | timeout : Nat → HedgedError
deriving DecidableEq, Repr

/-- `client.rs::ProviderStats` (wins, total winning latency in ms, errors). -/
structure ProviderStats where
  wins : Nat
  total_latency_ms : ℚ
  errors : Nat
deriving DecidableEq, Repr

/-- The statistics registry: `HashMap<ProviderId, ProviderStats>` as an
association list. -/
abbrev Stats := List (ProviderId × ProviderStats)

/-- `HedgedRpcClient::new` inserts a default `ProviderStats` per configured
provider. -/
def initStats (providers : List ProviderId) : Stats :=
  providers.map (fun p => (p, ⟨0, 0, 0⟩))

/-- `stats.get(&p)`: first-occurrence lookup. -/
def getStat : Stats → ProviderId → Option ProviderStats
  | [], _ => none
  | (q, v) :: rest, p => if q = p then some v else getStat rest p

/-- `stats.get_mut(&p)` followed by a mutation: updates the first occurrence
of the key, leaves the registry unchanged when the key is absent. -/
def updateStat : Stats → ProviderId → (ProviderStats → ProviderStats) → Stats
  | [], _, _ => []
  | (q, v) :: rest, p, f =>
      if q = p then (q, f v) :: rest else (q, v) :: updateStat rest p f

/-- Behaviour of the RPC closure on each provider: duration in ms and
outcome of `f(client).await` for that provider's transport handle. -/
abbrev Env (T : Type) := ProviderId → Nat × Except ClientError T

deriving instance DecidableEq for Except

/-- One launched attempt: the provider, its completion time (launch time +
duration, measured from dispatch start) and its result. -/
structure Attempt (T : Type) where
  id : ProviderId
  done : Nat
  res : Except ClientError T
deriving DecidableEq, Repr

/-- `selected_providers = &self.providers[..max_idx]` with
`max_idx = cfg.max_providers.min(providers.len())` (client.rs lines 151-155). -/
def selectedOf (providers : List ProviderId) (cfg : HedgeConfig) : List ProviderId :=
  providers.take (min cfg.max_providers providers.length)

/-- `initial_count = cfg.initial_providers.max(1).min(selected_providers.len())`
(client.rs lines 172-176). -/
def initialCountOf (cfg : HedgeConfig) (selected : List ProviderId) : Nat :=
  min (max cfg.initial_providers 1) selected.length

/-- `spawn_provider` at a given launch time: the attempt completes at
launch time plus the provider's duration. -/
def spawnAt (env : Env T) (launch : Nat) (p : ProviderId) : Attempt T :=
  ⟨p, launch + (env p).1, (env p).2⟩

/-- The initial wave (client.rs lines 178-180): the first `initial_count`
selected providers, launched at dispatch start. -/
def initialAttempts (providers : List ProviderId) (cfg : HedgeConfig) (env : Env T) :
    List (Attempt T) :=
  ((selectedOf providers cfg).take (initialCountOf cfg (selectedOf providers cfg))).map
    (spawnAt env 0)

/-- The reserve: `&selected_providers[initial_count..]`. -/
def reserveIds (providers : List ProviderId) (cfg : HedgeConfig) : List ProviderId :=
  (selectedOf providers cfg).drop (initialCountOf cfg (selectedOf providers cfg))

/-- Reserve attempts, launched at `hedge_after` when the hedge timer fires
(client.rs lines 199-204). -/
def reserveAttempts (providers : List ProviderId) (cfg : HedgeConfig) (env : Env T) :
    List (Attempt T) :=
  (reserveIds providers cfg).map (spawnAt env cfg.hedge_after)

/-- Boolean success test on a result. -/
def isOkRes : Except ClientError T → Bool
  | .ok _ => true
  | .error _ => false

/-- Whether the hedge timer fires: the reserve is non-empty
(`needs_hedging`), the overall timeout has not cut the race before
`hedge_after`, and no initial attempt returned `Ok` at or before
`hedge_after` (which would have ended the select loop first). -/
def hedgeFires (providers : List ProviderId) (cfg : HedgeConfig) (env : Env T) : Bool :=
  !(reserveIds providers cfg).isEmpty
    && decide (cfg.hedge_after ≤ cfg.overall_timeout)
    && !((initialAttempts providers cfg env).any
          (fun a => isOkRes a.res && decide (a.done ≤ cfg.hedge_after)))

/-- Every attempt pushed into the `FuturesUnordered` set during the race. -/
def launchedAttempts (providers : List ProviderId) (cfg : HedgeConfig) (env : Env T) :
    List (Attempt T) :=
  initialAttempts providers cfg env
    ++ (if hedgeFires providers cfg env then reserveAttempts providers cfg env else [])

/-- Stable insertion of an attempt into a list sorted by completion time. -/
def insertByDone (a : Attempt T) : List (Attempt T) → List (Attempt T)
  | [] => [a]
  | b :: rest => if a.done ≤ b.done then a :: b :: rest else b :: insertByDone a rest

/-- Attempts in the order the select loop observes their completions:
sorted by completion time, ties broken by launch order (stable). -/
def sortByDone : List (Attempt T) → List (Attempt T)
  | [] => []
  | a :: rest => insertByDone a (sortByDone rest)

/-- Terminal outcome of one hedged race, before error-type conversion. -/
inductive RaceOutcome (T : Type) where
  | won : ProviderId → T → Nat → RaceOutcome T
  | allFailed : List (ProviderId × ClientError) → RaceOutcome T
  | timedOut : RaceOutcome T
deriving DecidableEq, Repr

/-- Latest completion time among a list of attempts (the time the select
loop drains when every attempt fails). -/
def maxDone : List (Attempt T) → Nat
  | [] => 0
  | a :: rest => max a.done (maxDone rest)

/-- The failure entry an attempt contributes to the `failures` list. -/
def errEntry (a : Attempt T) : Option (ProviderId × ClientError) :=
  match a.res with
  | .error e => some (a.id, e)
  | .ok _ => none

/-- Replay of the race (client.rs lines 160-211): the first `Ok` in
completion order wins if it beats `overall_timeout`; otherwise, if the loop
can drain (hedging fired or was vacuous) before the timeout, the call
exhausts with the failures in completion order; otherwise the overall
timeout fires. -/
def raceOutcome (providers : List ProviderId) (cfg : HedgeConfig) (env : Env T) :
    RaceOutcome T :=
  match (sortByDone (launchedAttempts providers cfg env)).find? (fun a => isOkRes a.res) with
  | some a =>
      match a.res with
      | .ok v => if a.done ≤ cfg.overall_timeout then .won a.id v a.done else .timedOut
      | .error _ => .timedOut
  | none =>
      if hedgeFires providers cfg env || (reserveIds providers cfg).isEmpty then
        if maxDone (launchedAttempts providers cfg env) ≤ cfg.overall_timeout then
          .allFailed ((sortByDone (launchedAttempts providers cfg env)).filterMap errEntry)
        else .timedOut
      else .timedOut

/-- `entry.wins += 1; entry.total_latency_ms += elapsed_ms`
(client.rs lines 229-231). -/
def recordWin (elapsed : Nat) (s : ProviderStats) : ProviderStats :=
  { s with wins := s.wins + 1, total_latency_ms := s.total_latency_ms + (elapsed : ℚ) }

/-- `entry.errors += 1`. -/
def recordError (s : ProviderStats) : ProviderStats :=
  { s with errors := s.errors + 1 }

/-- The statistics commit after the race resolves (client.rs lines
215-248): a win for the winner, an error per failure pair on exhaustion, an
error for every selected provider on timeout. -/
def recordOutcome (selectedIds : List ProviderId) (o : RaceOutcome T) (stats : Stats) :
    Stats :=
  match o with
  | .won id _ elapsed => updateStat stats id (recordWin elapsed)
  | .allFailed fs => fs.foldl (fun st pr => updateStat st pr.1 recordError) stats
  | .timedOut => selectedIds.foldl (fun st p => updateStat st p recordError) stats

/-- Conversion of a race outcome to the caller-visible result
(client.rs lines 215-248). -/
def outcomeToResult (cfg : HedgeConfig) (o : RaceOutcome T) :
    Except HedgedError (ProviderId × T) :=
  match o with
  | .won id v _ => .ok (id, v)
  | .allFailed fs => .error (.allFailed fs)
  | .timedOut => .error (.timeout cfg.overall_timeout)

/-- `HedgedRpcClient::hedged_call` (client.rs lines 141-249): guard on an
empty provider list or `max_idx == 0`, then the race followed by the
statistics commit.  Returns the result together with the updated registry. -/
def hedged_call (providers : List ProviderId) (cfg : HedgeConfig) (env : Env T)
    (stats : Stats) : Except HedgedError (ProviderId × T) × Stats :=
  if providers.isEmpty then (.error .noProviders, stats)
  else if min cfg.max_providers providers.length = 0 then (.error .noProviders, stats)
  else
    (outcomeToResult cfg (raceOutcome providers cfg env),
     recordOutcome (selectedOf providers cfg) (raceOutcome providers cfg env) stats)

/-- The providers pushed into the race, with their launch times: the initial
wave at dispatch start (time 0), the reserve at `hedge_after` exactly when
the hedge timer fires (client.rs lines 178-180 and 199-204). -/
def contacts (providers : List ProviderId) (cfg : HedgeConfig) (env : Env T) :
    List (ProviderId × Nat) :=
  if providers.isEmpty then []
  else if min cfg.max_providers providers.length = 0 then []
  else
    ((selectedOf providers cfg).take (initialCountOf cfg (selectedOf providers cfg))).map
        (fun p => (p, 0))
      ++ (if hedgeFires providers cfg env then
            (reserveIds providers cfg).map (fun p => (p, cfg.hedge_after))
          else [])

/-- `solana Response { context: RpcResponseContext { slot, .. }, value }`,
restricted to the `slot` field the core reads. -/
structure RpcResponseContext where
  slot : Nat
deriving DecidableEq, Repr

/-- `RpcResponse<T>` as used by `get_account`. -/
structure RpcResponse (A : Type) where
  context : RpcResponseContext
  value : A
deriving DecidableEq, Repr

/-- `get_latest_blockhash` (client.rs lines 254-260): a direct binding of
the blockhash RPC to the scheduler. -/
def get_latest_blockhash {Hash : Type} (providers : List ProviderId) (cfg : HedgeConfig)
    (env : Env Hash) (stats : Stats) : Except HedgedError (ProviderId × Hash) × Stats :=
  hedged_call providers cfg env stats

/-- `get_latest_blockhash_any` (client.rs lines 263-266): drops the
provider id. -/
def get_latest_blockhash_any {Hash : Type} (providers : List ProviderId)
    (cfg : HedgeConfig) (env : Env Hash) (stats : Stats) :
    Except HedgedError Hash × Stats :=
  ((get_latest_blockhash providers cfg env stats).1.map Prod.snd,
   (get_latest_blockhash providers cfg env stats).2)

/-- `get_account` (client.rs lines 275-290): a direct binding of the
account RPC to the scheduler. -/
def get_account {Account : Type} (providers : List ProviderId) (cfg : HedgeConfig)
    (env : Env (RpcResponse (Option Account))) (stats : Stats) :
    Except HedgedError (ProviderId × RpcResponse (Option Account)) × Stats :=
  hedged_call providers cfg env stats

/-- `get_account_any` (client.rs lines 293-301): drops the provider id. -/
def get_account_any {Account : Type} (providers : List ProviderId) (cfg : HedgeConfig)
    (env : Env (RpcResponse (Option Account))) (stats : Stats) :
    Except HedgedError (RpcResponse (Option Account)) × Stats :=
  ((get_account providers cfg env stats).1.map Prod.snd,
   (get_account providers cfg env stats).2)

/-- The synthetic staleness message
`format!("StaleResponse: min_slot {min_slot}, got {}", resp.context.slot)`. -/
def staleMsg (min_slot got : Nat) : String :=
  "StaleResponse: min_slot " ++ toString min_slot ++ ", got " ++ toString got

/-- `get_account_fresh` (client.rs lines 312-330): `get_account` followed by
the freshness post-condition; violations become a synthetic one-entry
`AllFailed` on the winner, bypassing the scheduler's statistics commit. -/
def get_account_fresh {Account : Type} (providers : List ProviderId) (cfg : HedgeConfig)
    (env : Env (RpcResponse (Option Account))) (stats : Stats) (min_slot : Nat) :
    Except HedgedError (ProviderId × RpcResponse (Option Account)) × Stats :=
  match get_account providers cfg env stats with
  | (Except.ok (id, resp), st) =>
      if resp.context.slot < min_slot then
        (.error (.allFailed [(id, ClientError.custom (staleMsg min_slot resp.context.slot))]),
         st)
      else (.ok (id, resp), st)
  | (Except.error e, st) => (.error e, st)

/-- One snapshot entry (client.rs lines 113-127): average latency is the
accumulated winning latency over the win count, `0` when there are no wins. -/
structure ProviderStatsSnapshot where
  wins : Nat
  avg_latency_ms : ℚ
  errors : Nat
deriving DecidableEq, Repr

/-- The per-entry snapshot computation. -/
def snapshotOf (s : ProviderStats) : ProviderStatsSnapshot :=
  { wins := s.wins
  , avg_latency_ms := if 0 < s.wins then s.total_latency_ms / (s.wins : ℚ) else 0
  , errors := s.errors }

/-- `provider_stats` (client.rs lines 108-130): materializes the snapshot
map from the registry; the registry itself is only read, so it is returned
unchanged. -/
def provider_stats (stats : Stats) :
    List (ProviderId × ProviderStatsSnapshot) × Stats :=
  (stats.map (fun e => (e.1, snapshotOf e.2)), stats)

/-- Lookup in a snapshot map, first occurrence. -/
def getSnap : List (ProviderId × ProviderStatsSnapshot) → ProviderId →
    Option ProviderStatsSnapshot
  | [], _ => none
  | (q, v) :: rest, p => if q = p then some v else getSnap rest p

/-! ### Registry lemmas -/

theorem getStat_updateStat_self (s : Stats) (p : ProviderId)
    (f : ProviderStats → ProviderStats) :
    getStat (updateStat s p f) p = (getStat s p).map f := by
  induction s with
  | nil => rfl
  | cons e rest ih =>
      obtain ⟨q, v⟩ := e
      by_cases h : q = p <;> simp [getStat, updateStat, h, ih]

theorem getStat_updateStat_ne (s : Stats) (p q : ProviderId)
    (f : ProviderStats → ProviderStats) (h : q ≠ p) :
    getStat (updateStat s p f) q = getStat s q := by
  induction s with
  | nil => rfl
  | cons e rest ih =>
      obtain ⟨r, v⟩ := e
      by_cases hrq : r = q
      · have hrp : ¬ r = p := fun hh => h (hrq ▸ hh)
        simp [getStat, updateStat, hrp, hrq, h]
      · by_cases hrp : r = p <;>
          simp [getStat, updateStat, hrp, hrq, Ne.symm h, ih]

theorem getStat_foldl_recordError {α : Type} (key : α → ProviderId) (l : List α)
    (s : Stats) (p : ProviderId) :
    getStat (l.foldl (fun st x => updateStat st (key x) recordError) s) p
      = (getStat s p).map (fun v =>
          ProviderStats.mk v.wins v.total_latency_ms
            (v.errors + l.countP (fun x => decide (key x = p)))) := by
  induction l generalizing s with
  | nil =>
      cases h : getStat s p <;> simp [List.countP_nil, h]
  | cons x xs ih =>
      rw [List.foldl_cons, ih]
      by_cases hk : key x = p
      · rw [hk, getStat_updateStat_self]
        cases h : getStat s p with
        | none => simp
        | some v =>
            simp [recordError, List.countP_cons, hk]
            omega
      · rw [getStat_updateStat_ne _ _ _ _ (fun hh => hk hh.symm)]
        cases h : getStat s p <;> simp [List.countP_cons, hk]

theorem countP_eq_one_of_nodup (l : List ProviderId) (p : ProviderId)
    (hnd : l.Nodup) (hm : p ∈ l) :
    l.countP (fun x => decide (x = p)) = 1 := by
  induction l with
  | nil => cases hm
  | cons a rest ih =>
      rw [List.countP_cons]
      rcases List.mem_cons.mp hm with h | h
      · have hz : rest.countP (fun x => decide (x = p)) = 0 :=
          List.countP_eq_zero.mpr (fun b hb => by
            simp only [decide_eq_true_eq]
            intro hbp
            exact (List.nodup_cons.mp hnd).1 (h ▸ hbp ▸ hb))
        simp [hz, h.symm]
      · have ha : a ≠ p := fun hh => (List.nodup_cons.mp hnd).1 (hh ▸ h)
        simp [ih (List.nodup_cons.mp hnd).2 h, ha]

theorem countP_eq_zero_of_not_mem (l : List ProviderId) (p : ProviderId)
    (hm : p ∉ l) :
    l.countP (fun x => decide (x = p)) = 0 :=
  List.countP_eq_zero.mpr (fun b hb => by
    simp only [decide_eq_true_eq]
    intro hbp
    exact hm (hbp ▸ hb))

/-! ### Branch characterizations -/

theorem hedged_call_eq {T : Type} (providers : List ProviderId) (cfg : HedgeConfig)
    (env : Env T) (stats : Stats) (h1 : ¬ providers.isEmpty = true)
    (h2 : ¬ min cfg.max_providers providers.length = 0) :
    hedged_call providers cfg env stats
      = (outcomeToResult cfg (raceOutcome providers cfg env),
         recordOutcome (selectedOf providers cfg) (raceOutcome providers cfg env) stats) := by
  simp [hedged_call, h1, h2]

theorem hedged_call_fst_noProviders_iff {T : Type} (providers : List ProviderId)
    (cfg : HedgeConfig) (env : Env T) (stats : Stats) :
    (hedged_call providers cfg env stats).1 = .error .noProviders
      ↔ providers = [] ∨ cfg.max_providers = 0 := by
  by_cases h1 : providers.isEmpty
  · simp [hedged_call, h1, List.isEmpty_iff.mp h1]
  · have hne : providers ≠ [] := by simpa [List.isEmpty_iff] using h1
    by_cases h2 : min cfg.max_providers providers.length = 0
    · have hmax : cfg.max_providers = 0 := by
        rcases Nat.min_eq_zero_iff.mp h2 with h | h
        · exact h
        · exact absurd (List.length_eq_zero.mp h) hne
      simp [hedged_call, h1, h2, hmax]
    · have hmax : cfg.max_providers ≠ 0 := fun h0 => h2 (by simp [h0])
      rw [hedged_call_eq providers cfg env stats h1 h2]
      cases ho : raceOutcome providers cfg env <;>
        simp [outcomeToResult, hne, hmax]

theorem get_account_fresh_of_err {Account : Type} (providers : List ProviderId)
    (cfg : HedgeConfig) (env : Env (RpcResponse (Option Account))) (stats : Stats)
    (min_slot : Nat) (e : HedgedError)
    (h : (get_account providers cfg env stats).1 = Except.error e) :
    get_account_fresh providers cfg env stats min_slot
      = (.error e, (get_account providers cfg env stats).2) := by
  cases hga : get_account providers cfg env stats with
  | mk r st =>
      rw [hga] at h
      simp only at h
      subst h
      simp [get_account_fresh, hga]

theorem get_account_fresh_of_ok_stale {Account : Type} (providers : List ProviderId)
    (cfg : HedgeConfig) (env : Env (RpcResponse (Option Account))) (stats : Stats)
    (min_slot : Nat) (id : ProviderId) (resp : RpcResponse (Option Account))
    (h : (get_account providers cfg env stats).1 = Except.ok (id, resp))
    (hs : resp.context.slot < min_slot) :
    get_account_fresh providers cfg env stats min_slot
      = (.error (.allFailed [(id, ClientError.custom (staleMsg min_slot resp.context.slot))]),
         (get_account providers cfg env stats).2) := by
  cases hga : get_account providers cfg env stats with
  | mk r st =>
      rw [hga] at h
      simp only at h
      subst h
      simp [get_account_fresh, hga, hs]

theorem get_account_fresh_of_ok_fresh {Account : Type} (providers : List ProviderId)
    (cfg : HedgeConfig) (env : Env (RpcResponse (Option Account))) (stats : Stats)
    (min_slot : Nat) (id : ProviderId) (resp : RpcResponse (Option Account))
    (h : (get_account providers cfg env stats).1 = Except.ok (id, resp))
    (hs : ¬ resp.context.slot < min_slot) :
    get_account_fresh providers cfg env stats min_slot
      = (.ok (id, resp), (get_account providers cfg env stats).2) := by
  cases hga : get_account providers cfg env stats with
  | mk r st =>
      rw [hga] at h
      simp only at h
      subst h
      simp [get_account_fresh, hga, hs]

/-! ### Claims -/

/-- C9: when `hedged_call` fails the `NoProviders` guard (empty provider
list or `max_providers == 0`), the statistics registry is returned
completely unchanged — no wins, errors or latency accumulator moves. -/
theorem c9_guard_leaves_stats_unchanged {T : Type} (providers : List ProviderId)
    (cfg : HedgeConfig) (env : Env T) (stats : Stats)
    (h : providers = [] ∨ cfg.max_providers = 0) :
    hedged_call providers cfg env stats = (.error .noProviders, stats) := by
  rcases h with h | h
  · subst h
    simp [hedged_call]
  · by_cases he : providers.isEmpty <;> simp [hedged_call, he, h]

/-- C9 witness: the guard at a concrete call site. -/
theorem c9_witness :
    (([] : List ProviderId) = [] ∨ (HedgeConfig.mk 1 80 3 none 1000).max_providers = 0)
  ∧ hedged_call ([] : List ProviderId) (HedgeConfig.mk 1 80 3 none 1000)
      (fun _ => ((0 : Nat), Except.error (ClientError.transport "down")) : Env Unit)
      (initStats ["x"]) = (.error .noProviders, initStats ["x"]) :=
  ⟨Or.inl rfl, c9_guard_leaves_stats_unchanged _ _ _ _ (Or.inl rfl)⟩

/-- C6: `hedged_call` (and `get_account_fresh`, which only passes scheduler
errors through or synthesizes `AllFailed`) returns `NoProviders` exactly
when the provider list is empty or `max_providers == 0`; otherwise
`NoProviders` is never returned. -/
theorem c6_noProviders_characterization {T A : Type} (providers : List ProviderId)
    (cfg : HedgeConfig) (env : Env T) (envA : Env (RpcResponse (Option A)))
    (stats : Stats) (ms : Nat) :
    ((hedged_call providers cfg env stats).1 = .error .noProviders
        ↔ providers = [] ∨ cfg.max_providers = 0)
  ∧ ((get_account_fresh providers cfg envA stats ms).1 = .error .noProviders
        ↔ providers = [] ∨ cfg.max_providers = 0) := by
  refine ⟨hedged_call_fst_noProviders_iff providers cfg env stats, ?_⟩
  have key : (get_account_fresh providers cfg envA stats ms).1 = .error .noProviders
      ↔ (get_account providers cfg envA stats).1 = .error .noProviders := by
    cases hr : (get_account providers cfg envA stats).1 with
    | error e =>
        rw [get_account_fresh_of_err providers cfg envA stats ms e hr]
    | ok pr =>
        by_cases hs : pr.2.context.slot < ms
        · rw [get_account_fresh_of_ok_stale providers cfg envA stats ms pr.1 pr.2
            (by rw [hr]) hs]
          simp
        · rw [get_account_fresh_of_ok_fresh providers cfg envA stats ms pr.1 pr.2
            (by rw [hr]) hs]
  rw [key]
  exact hedged_call_fst_noProviders_iff providers cfg envA stats

/-- C5: on a successful hedged call the winner — and only the winner — is
credited one win and its winning-latency accumulator grows by the observed
elapsed time of the race; its error counter and every other provider's
counters are untouched. -/
theorem c5_single_win_credit {T : Type} (providers : List ProviderId) (cfg : HedgeConfig)
    (env : Env T) (stats : Stats) (w : ProviderId) (v : T) (e : Nat)
    (h1 : providers ≠ []) (h2 : cfg.max_providers ≠ 0)
    (h : raceOutcome providers cfg env = .won w v e) :
    (hedged_call providers cfg env stats).1 = .ok (w, v)
  ∧ getStat (hedged_call providers cfg env stats).2 w
      = (getStat stats w).map (fun s =>
          ProviderStats.mk (s.wins + 1) (s.total_latency_ms + (e : ℚ)) s.errors)
  ∧ (∀ p, p ≠ w → getStat (hedged_call providers cfg env stats).2 p = getStat stats p)
  ∧ ((getStat (hedged_call providers cfg env stats).2 w).map (fun s => s.errors)
      = (getStat stats w).map (fun s => s.errors)) := by
  have he : ¬ providers.isEmpty = true := by simpa [List.isEmpty_iff] using h1
  have hm : ¬ min cfg.max_providers providers.length = 0 := by
    simp [Nat.min_eq_zero_iff, List.length_eq_zero, h1, h2]
  rw [hedged_call_eq providers cfg env stats he hm, h]
  refine ⟨rfl, ?_, ?_, ?_⟩
  · rw [show recordOutcome (selectedOf providers cfg) (RaceOutcome.won w v e) stats
        = updateStat stats w (recordWin e) from rfl]
    rw [getStat_updateStat_self]
    cases getStat stats w <;> simp [recordWin]
  · intro p hp
    exact getStat_updateStat_ne _ _ _ _ hp
  · rw [show recordOutcome (selectedOf providers cfg) (RaceOutcome.won w v e) stats
        = updateStat stats w (recordWin e) from rfl]
    rw [getStat_updateStat_self]
    cases getStat stats w <;> simp [recordWin]

/-- C5 witness: a concrete two-provider race won by the first provider. -/
theorem c5_witness :
    (["a", "b"] : List ProviderId) ≠ []
  ∧ (HedgeConfig.mk 2 50 2 none 1000).max_providers ≠ 0
  ∧ raceOutcome ["a", "b"] (HedgeConfig.mk 2 50 2 none 1000)
      (fun p => if p = "a" then ((30 : Nat), Except.ok (0 : Nat)) else (40, Except.ok 1))
      = .won "a" (0 : Nat) (30 : Nat)
  ∧ (hedged_call ["a", "b"] (HedgeConfig.mk 2 50 2 none 1000)
      (fun p => if p = "a" then ((30 : Nat), Except.ok (0 : Nat)) else (40, Except.ok 1))
      (initStats ["a", "b"])).1 = .ok ("a", (0 : Nat)) :=
  ⟨by decide, by decide, by decide,
   (c5_single_win_credit ["a", "b"] (HedgeConfig.mk 2 50 2 none 1000)
      (fun p => if p = "a" then ((30 : Nat), Except.ok (0 : Nat)) else (40, Except.ok 1))
      (initStats ["a", "b"]) "a" (0 : Nat) (30 : Nat)
      (by decide) (by decide) (by decide)).1⟩

/-- C3: when the overall timeout wins the race, the call reports `Timeout`
with the configured `overall_timeout`, the error counter of every provider
in the selected prefix (contacted or not) grows by exactly one, providers
outside the prefix are untouched, and no win counter moves. -/
theorem c3_timeout_pessimism {T : Type} (providers : List ProviderId) (cfg : HedgeConfig)
    (env : Env T) (stats : Stats) (d : Nat)
    (hnd : providers.Nodup)
    (h : (hedged_call providers cfg env stats).1 = .error (.timeout d)) :
    d = cfg.overall_timeout
  ∧ (∀ p ∈ selectedOf providers cfg,
      getStat (hedged_call providers cfg env stats).2 p
        = (getStat stats p).map (fun v =>
            ProviderStats.mk v.wins v.total_latency_ms (v.errors + 1)))
  ∧ (∀ p, p ∉ selectedOf providers cfg →
      getStat (hedged_call providers cfg env stats).2 p = getStat stats p)
  ∧ (∀ p, (getStat (hedged_call providers cfg env stats).2 p).map (fun v => v.wins)
      = (getStat stats p).map (fun v => v.wins)) := by
  by_cases h1 : providers.isEmpty
  · simp [hedged_call, h1] at h
  · by_cases h2 : min cfg.max_providers providers.length = 0
    · simp [hedged_call, h1, h2] at h
    · rw [hedged_call_eq providers cfg env stats h1 h2] at h ⊢
      cases ho : raceOutcome providers cfg env with
      | won w v e => rw [ho] at h; simp [outcomeToResult] at h
      | allFailed fs => rw [ho] at h; simp [outcomeToResult] at h
      | timedOut =>
          rw [ho] at h
          simp only [outcomeToResult] at h
          have hd : d = cfg.overall_timeout := by
            cases h.symm
            rfl
          have hsnd : ∀ p, getStat
              (recordOutcome (selectedOf providers cfg) (RaceOutcome.timedOut (T := T)) stats) p
              = (getStat stats p).map (fun v =>
                  ProviderStats.mk v.wins v.total_latency_ms
                    (v.errors +
                      (selectedOf providers cfg).countP (fun x => decide (x = p)))) :=
            fun p => getStat_foldl_recordError (fun x => x) (selectedOf providers cfg) stats p
          have hndsel : (selectedOf providers cfg).Nodup :=
            (List.take_sublist _ _).nodup hnd
          refine ⟨hd, ?_, ?_, ?_⟩
          · intro p hp
            show getStat (recordOutcome (selectedOf providers cfg)
                (RaceOutcome.timedOut (T := T)) stats) p = _
            rw [hsnd p, countP_eq_one_of_nodup _ _ hndsel hp]
          · intro p hp
            show getStat (recordOutcome (selectedOf providers cfg)
                (RaceOutcome.timedOut (T := T)) stats) p = _
            rw [hsnd p, countP_eq_zero_of_not_mem _ _ hp]
            cases getStat stats p <;> simp
          · intro p
            show (getStat (recordOutcome (selectedOf providers cfg)
                (RaceOutcome.timedOut (T := T)) stats) p).map (fun v => v.wins) = _
            rw [hsnd p]
            cases getStat stats p <;> simp

/-- C3 witness: both providers hang past a 100 ms overall timeout. -/
theorem c3_witness :
    (["a", "b"] : List ProviderId).Nodup
  ∧ (hedged_call ["a", "b"] (HedgeConfig.mk 2 50 2 none 100)
      (fun _ => ((500 : Nat), Except.error (ClientError.transport "slow")) : Env Unit)
      (initStats ["a", "b"])).1 = .error (.timeout 100)
  ∧ (100 : Nat) = (HedgeConfig.mk 2 50 2 none 100).overall_timeout :=
  ⟨by decide, by decide,
   (c3_timeout_pessimism ["a", "b"] (HedgeConfig.mk 2 50 2 none 100)
      (fun _ => ((500 : Nat), Except.error (ClientError.transport "slow")) : Env Unit)
      (initStats ["a", "b"]) (100 : Nat) (by decide) (by decide)).1⟩

/-- C1 (amended): for every `hedged_call` that returns `AllFailed` with
failure list `F` — and hence for the scheduler-produced `AllFailed` of every
public operation — each provider's error counter grows by exactly the number
of pairs `(p, _)` in `F` and no win counter moves.  The synthetic staleness
`AllFailed` that `get_account_fresh` builds after a successful race is
exempt: it records no error and leaves the winner's freshly credited win in
place (see the counterexample). -/
theorem c1_allFailed_error_accounting {T : Type} (providers : List ProviderId)
    (cfg : HedgeConfig) (env : Env T) (stats : Stats)
    (F : List (ProviderId × ClientError))
    (h : (hedged_call providers cfg env stats).1 = .error (.allFailed F)) :
    (∀ p, getStat (hedged_call providers cfg env stats).2 p
        = (getStat stats p).map (fun v =>
            ProviderStats.mk v.wins v.total_latency_ms
              (v.errors + F.countP (fun pr => decide (pr.1 = p)))))
  ∧ (∀ p, (getStat (hedged_call providers cfg env stats).2 p).map (fun v => v.wins)
        = (getStat stats p).map (fun v => v.wins)) := by
  by_cases h1 : providers.isEmpty
  · simp [hedged_call, h1] at h
  · by_cases h2 : min cfg.max_providers providers.length = 0
    · simp [hedged_call, h1, h2] at h
    · rw [hedged_call_eq providers cfg env stats h1 h2] at h ⊢
      cases ho : raceOutcome providers cfg env with
      | won w v e => rw [ho] at h; simp [outcomeToResult] at h
      | timedOut => rw [ho] at h; simp [outcomeToResult] at h
      | allFailed fs =>
          rw [ho] at h
          simp only [outcomeToResult, Except.error.injEq, HedgedError.allFailed.injEq] at h
          subst h
          have hsnd : ∀ p, getStat
              (recordOutcome (selectedOf providers cfg) (RaceOutcome.allFailed (T := T) fs)
                stats) p
              = (getStat stats p).map (fun v =>
                  ProviderStats.mk v.wins v.total_latency_ms
                    (v.errors + fs.countP (fun pr => decide (pr.1 = p)))) :=
            fun p => getStat_foldl_recordError Prod.fst fs stats p
          refine ⟨?_, ?_⟩
          · intro p
            show getStat (recordOutcome (selectedOf providers cfg)
                (RaceOutcome.allFailed (T := T) fs) stats) p = _
            exact hsnd p
          · intro p
            show (getStat (recordOutcome (selectedOf providers cfg)
                (RaceOutcome.allFailed (T := T) fs) stats) p).map (fun v => v.wins) = _
            rw [hsnd p]
            cases getStat stats p <;> simp

/-- C1 witness: both providers fail at the transport level, the failure
list carries both pairs, and the win counters are untouched. -/
theorem c1_witness :
    (hedged_call ["a", "b"] (HedgeConfig.mk 2 100 2 none 1000)
        (fun p => if p = "a" then ((30 : Nat), Except.error (ClientError.transport "ta"))
          else (40, Except.error (ClientError.transport "tb")) : Env Unit)
        (initStats ["a", "b"])).1
      = .error (.allFailed
          [("a", ClientError.transport "ta"), ("b", ClientError.transport "tb")])
  ∧ (getStat (hedged_call ["a", "b"] (HedgeConfig.mk 2 100 2 none 1000)
        (fun p => if p = "a" then ((30 : Nat), Except.error (ClientError.transport "ta"))
          else (40, Except.error (ClientError.transport "tb")) : Env Unit)
        (initStats ["a", "b"])).2 "a").map (fun v => v.wins)
      = (getStat (initStats ["a", "b"]) "a").map (fun v => v.wins) :=
  ⟨by decide,
   (c1_allFailed_error_accounting ["a", "b"] (HedgeConfig.mk 2 100 2 none 1000)
      (fun p => if p = "a" then ((30 : Nat), Except.error (ClientError.transport "ta"))
        else (40, Except.error (ClientError.transport "tb")) : Env Unit)
      (initStats ["a", "b"])
      [("a", ClientError.transport "ta"), ("b", ClientError.transport "tb")]
      (by decide)).2 "a"⟩

/-- C1 counterexample: a single provider answers successfully in 10 ms with
slot 90; `get_account_fresh` with `min_slot = 100` returns `AllFailed` with
one failure pair, yet that provider's error counter stays at 0 (the claim
demands 1) and its win counter moved from 0 to 1 (the claim demands no
change). -/
theorem c1_counterexample :
    (get_account_fresh ["alpha"] (HedgeConfig.mk 1 80 1 none 1000)
        (fun _ => ((10 : Nat), Except.ok ⟨⟨90⟩, (none : Option Unit)⟩))
        (initStats ["alpha"]) 100).1
      = .error (.allFailed
          [("alpha", ClientError.custom "StaleResponse: min_slot 100, got 90")])
  ∧ ((getStat (get_account_fresh ["alpha"] (HedgeConfig.mk 1 80 1 none 1000)
        (fun _ => ((10 : Nat), Except.ok ⟨⟨90⟩, (none : Option Unit)⟩))
        (initStats ["alpha"]) 100).2 "alpha").map (fun v => v.errors) = some 0)
  ∧ ((getStat (get_account_fresh ["alpha"] (HedgeConfig.mk 1 80 1 none 1000)
        (fun _ => ((10 : Nat), Except.ok ⟨⟨90⟩, (none : Option Unit)⟩))
        (initStats ["alpha"]) 100).2 "alpha").map (fun v => v.wins) = some 1) :=
  ⟨by decide, by decide, by decide⟩

/-- C2: `get_account_fresh` only succeeds when the response slot meets the
freshness floor; when the underlying `get_account` succeeds but the slot is
stale, the call returns `AllFailed` with exactly one entry pairing the
winner with a synthetic `Custom` error message carrying `min_slot` and the
observed slot, and leaves the registry exactly as `get_account` left it. -/
theorem c2_freshness_postcondition {Account : Type} (providers : List ProviderId)
    (cfg : HedgeConfig) (env : Env (RpcResponse (Option Account))) (stats : Stats)
    (min_slot : Nat) :
    (∀ id resp,
        (get_account_fresh providers cfg env stats min_slot).1 = .ok (id, resp) →
        min_slot ≤ resp.context.slot)
  ∧ (∀ id resp,
        (get_account providers cfg env stats).1 = .ok (id, resp) →
        resp.context.slot < min_slot →
        (get_account_fresh providers cfg env stats min_slot).1
            = .error (.allFailed [(id,
                ClientError.custom ("StaleResponse: min_slot " ++ toString min_slot
                  ++ ", got " ++ toString resp.context.slot))])
          ∧ (get_account_fresh providers cfg env stats min_slot).2
              = (get_account providers cfg env stats).2) := by
  constructor
  · intro id resp hok
    cases hr : (get_account providers cfg env stats).1 with
    | error e =>
        rw [get_account_fresh_of_err providers cfg env stats min_slot e hr] at hok
        exact absurd hok (by simp)
    | ok pr =>
        by_cases hs : pr.2.context.slot < min_slot
        · rw [get_account_fresh_of_ok_stale providers cfg env stats min_slot pr.1 pr.2
            (by rw [hr]) hs] at hok
          exact absurd hok (by simp)
        · rw [get_account_fresh_of_ok_fresh providers cfg env stats min_slot pr.1 pr.2
            (by rw [hr]) hs] at hok
          have hpr : pr = (id, resp) := by
            simpa using hok
          rw [hpr] at hs
          exact Nat.le_of_not_lt hs
  · intro id resp hok hs
    rw [get_account_fresh_of_ok_stale providers cfg env stats min_slot id resp hok hs]
    exact ⟨rfl, rfl⟩

/-- C2 witness: a fresh success at slot 150 against floor 100, and a stale
success at slot 90 against floor 100. -/
theorem c2_witness :
    ((100 : Nat) ≤ 150)
  ∧ ((get_account_fresh ["a"] (HedgeConfig.mk 1 80 1 none 1000)
        (fun _ => ((40 : Nat), Except.ok ⟨⟨90⟩, (none : Option Unit)⟩))
        (initStats ["a"]) 100).1
        = .error (.allFailed [("a",
            ClientError.custom ("StaleResponse: min_slot " ++ toString 100
              ++ ", got " ++ toString 90))])
      ∧ (get_account_fresh ["a"] (HedgeConfig.mk 1 80 1 none 1000)
          (fun _ => ((40 : Nat), Except.ok ⟨⟨90⟩, (none : Option Unit)⟩))
          (initStats ["a"]) 100).2
          = (get_account ["a"] (HedgeConfig.mk 1 80 1 none 1000)
              (fun _ => ((40 : Nat), Except.ok ⟨⟨90⟩, (none : Option Unit)⟩))
              (initStats ["a"])).2) :=
  ⟨(c2_freshness_postcondition ["a"] (HedgeConfig.mk 1 80 1 none 1000)
      (fun _ => ((40 : Nat), Except.ok ⟨⟨150⟩, (none : Option Unit)⟩))
      (initStats ["a"]) 100).1 "a" ⟨⟨150⟩, none⟩ (by decide),
   (c2_freshness_postcondition ["a"] (HedgeConfig.mk 1 80 1 none 1000)
      (fun _ => ((40 : Nat), Except.ok ⟨⟨90⟩, (none : Option Unit)⟩))
      (initStats ["a"]) 100).2 "a" ⟨⟨90⟩, none⟩ (by decide) (by decide)⟩

theorem getSnap_map_snapshot (stats : Stats) (p : ProviderId) :
    getSnap (stats.map (fun e => (e.1, snapshotOf e.2))) p
      = (getStat stats p).map snapshotOf := by
  induction stats with
  | nil => rfl
  | cons e rest ih =>
      obtain ⟨q, v⟩ := e
      by_cases h : q = p <;> simp [getSnap, getStat, h, ih]

/-- C7: each snapshot entry reports the stored win and error counters and
an average latency equal to the accumulated winning latency over the wins
(0 when there are no wins); taking a snapshot leaves the registry
unchanged, so two snapshots with no calls in between are identical. -/
theorem c7_snapshot_faithful (stats : Stats) :
    (provider_stats stats).2 = stats
  ∧ (provider_stats ((provider_stats stats).2)).1 = (provider_stats stats).1
  ∧ (∀ p, getSnap ((provider_stats stats).1) p = (getStat stats p).map snapshotOf)
  ∧ (∀ s : ProviderStats,
        (snapshotOf s).wins = s.wins
      ∧ (snapshotOf s).errors = s.errors
      ∧ (snapshotOf s).avg_latency_ms
          = if 0 < s.wins then s.total_latency_ms / (s.wins : ℚ) else 0) :=
  ⟨rfl, rfl, fun p => getSnap_map_snapshot stats p, fun _ => ⟨rfl, rfl, rfl⟩⟩

/-- C8: confidential-to-the-scheduler configuration — two configurations
differing only in `min_slot` make every operation return identical results
and identical registries on the same inputs: the scheduler never reads
`min_slot`, and `get_account_fresh` uses only its explicit argument. -/
theorem c8_min_slot_never_read {T A : Type} (providers : List ProviderId)
    (cfg : HedgeConfig) (env : Env T) (envA : Env (RpcResponse (Option A)))
    (stats : Stats) (m : Option Nat) (ms : Nat) :
    hedged_call providers { cfg with min_slot := m } env stats
        = hedged_call providers cfg env stats
  ∧ get_latest_blockhash providers { cfg with min_slot := m } env stats
        = get_latest_blockhash providers cfg env stats
  ∧ get_latest_blockhash_any providers { cfg with min_slot := m } env stats
        = get_latest_blockhash_any providers cfg env stats
  ∧ get_account providers { cfg with min_slot := m } envA stats
        = get_account providers cfg envA stats
  ∧ get_account_any providers { cfg with min_slot := m } envA stats
        = get_account_any providers cfg envA stats
  ∧ get_account_fresh providers { cfg with min_slot := m } envA stats ms
        = get_account_fresh providers cfg envA stats ms := by
  obtain ⟨a, b, c, d, e⟩ := cfg
  exact ⟨rfl, rfl, rfl, rfl, rfl, rfl⟩

theorem hedgeFires_of_selected_nil {T : Type} (providers : List ProviderId)
    (cfg : HedgeConfig) (env : Env T) (hsel : selectedOf providers cfg = []) :
    hedgeFires providers cfg env = false := by
  have hres : reserveIds providers cfg = [] := by simp [reserveIds, hsel]
  simp [hedgeFires, hres]

/-- C4: every contact stays inside the selected prefix
`providers[0 .. min(max_providers, N)]`; the contacts start with exactly the
initial wave (the first `initial_count` prefix providers, launched at
dispatch time 0); every later contact is a reserve provider launched at
`hedge_after` and only when the hedge timer fires (in which case the whole
prefix is contacted); and no provider past the prefix is ever contacted. -/
theorem c4_prefix_respect {T : Type} (providers : List ProviderId) (cfg : HedgeConfig)
    (env : Env T) (hnd : providers.Nodup) :
    (∀ pc ∈ contacts providers cfg env, pc.1 ∈ selectedOf providers cfg)
  ∧ (contacts providers cfg env).take (initialCountOf cfg (selectedOf providers cfg))
      = ((selectedOf providers cfg).take
            (initialCountOf cfg (selectedOf providers cfg))).map (fun p => (p, 0))
  ∧ (∀ pc ∈ (contacts providers cfg env).drop
        (initialCountOf cfg (selectedOf providers cfg)),
      pc.2 = cfg.hedge_after ∧ hedgeFires providers cfg env = true)
  ∧ (hedgeFires providers cfg env = true →
      (contacts providers cfg env).map Prod.fst = selectedOf providers cfg)
  ∧ (∀ p ∈ providers.drop (min cfg.max_providers providers.length),
      p ∉ (contacts providers cfg env).map Prod.fst) := by
  by_cases h1 : providers.isEmpty
  · have hsel : selectedOf providers cfg = [] := by
      simp [selectedOf, List.isEmpty_iff.mp h1]
    have hfir := hedgeFires_of_selected_nil providers cfg env hsel
    simp [contacts, h1, hsel, hfir]
  · by_cases h2 : min cfg.max_providers providers.length = 0
    · have hsel : selectedOf providers cfg = [] := by simp [selectedOf, h2]
      have hfir := hedgeFires_of_selected_nil providers cfg env hsel
      have hcon : contacts providers cfg env = [] := by simp [contacts, h1, h2]
      simp [hcon, hsel, hfir]
    · have hcon : contacts providers cfg env
          = ((selectedOf providers cfg).take
                (initialCountOf cfg (selectedOf providers cfg))).map (fun p => (p, 0))
            ++ (if hedgeFires providers cfg env then
                  (reserveIds providers cfg).map (fun p => (p, cfg.hedge_after))
                else []) := by
        simp [contacts, h1, h2]
      have hic_le : initialCountOf cfg (selectedOf providers cfg)
          ≤ (selectedOf providers cfg).length := Nat.min_le_right _ _
      have hlen : (((selectedOf providers cfg).take
            (initialCountOf cfg (selectedOf providers cfg))).map
              (fun p => (p, (0 : Nat)))).length
          = initialCountOf cfg (selectedOf providers cfg) := by
        simp [Nat.min_eq_left hic_le]
      have hc1 : ∀ pc ∈ contacts providers cfg env, pc.1 ∈ selectedOf providers cfg := by
        intro pc hpc
        rw [hcon] at hpc
        rcases List.mem_append.mp hpc with hin | hin
        · obtain ⟨q, hq, hqe⟩ := List.mem_map.mp hin
          rw [← hqe]
          exact List.mem_of_mem_take hq
        · by_cases hf : hedgeFires providers cfg env
          · rw [if_pos hf] at hin
            obtain ⟨q, hq, hqe⟩ := List.mem_map.mp hin
            rw [← hqe]
            exact List.mem_of_mem_drop hq
          · rw [if_neg hf] at hin
            cases hin
      refine ⟨hc1, ?_, ?_, ?_, ?_⟩
      · rw [hcon, List.take_left' hlen]
      · intro pc hpc
        rw [hcon, List.drop_left' hlen] at hpc
        by_cases hf : hedgeFires providers cfg env
        · rw [if_pos hf] at hpc
          obtain ⟨q, _, hqe⟩ := List.mem_map.mp hpc
          rw [← hqe]
          exact ⟨rfl, hf⟩
        · rw [if_neg hf] at hpc
          cases hpc
      · intro hf
        have hmapl : ∀ (c : Nat) (l : List ProviderId),
            (l.map (fun p => (p, c))).map Prod.fst = l := by
          intro c l
          induction l with
          | nil => rfl
          | cons x xs ih => simp [ih]
        rw [hcon, if_pos hf, List.map_append, hmapl, hmapl, reserveIds,
          List.take_append_drop]
      · intro p hp hmem
        obtain ⟨pc, hpc, hpce⟩ := List.mem_map.mp hmem
        have hsel : p ∈ providers.take (min cfg.max_providers providers.length) :=
          hpce ▸ hc1 pc hpc
        rw [← List.take_append_drop (min cfg.max_providers providers.length) providers]
          at hnd
        exact (List.nodup_append.mp hnd).2.2 hsel hp

/-- C4 witness: three configured providers with `max_providers = 2`; the
third provider is outside the prefix and never contacted. -/
theorem c4_witness :
    (["a", "b", "c"] : List ProviderId).Nodup
  ∧ "c" ∈ (["a", "b", "c"] : List ProviderId).drop
      (min (HedgeConfig.mk 1 50 2 none 1000).max_providers
        (["a", "b", "c"] : List ProviderId).length)
  ∧ "c" ∉ (contacts ["a", "b", "c"] (HedgeConfig.mk 1 50 2 none 1000)
      (fun _ => ((30 : Nat), Except.error (ClientError.transport "x")) : Env Unit)).map
        Prod.fst :=
  ⟨by decide, by decide,
   (c4_prefix_respect ["a", "b", "c"] (HedgeConfig.mk 1 50 2 none 1000)
      (fun _ => ((30 : Nat), Except.error (ClientError.transport "x")) : Env Unit)
      (by decide)).2.2.2.2 "c" (by decide)⟩

end HedgedRpc
